import Mathlib

/-!
Verification of the channel gateway and background task manager of the iWork
repository (`backend/channels/gateway.py`, `backend/core/task_manager.py`).

Python dictionaries become Lean structures, the SQLite record store becomes
association lists threaded through the functions, `asyncio` interleavings are
modelled as explicit traces, and `time.time()` values become rationals.
-/

namespace IWork

/-! ## Events

Engine / task events are Python dicts; we model the fields the core reads.
`content` blocks appear inside `assistant` events. -/

structure Block where
  type : String := ""
  text : String := ""
deriving DecidableEq, Repr

structure Event where
  type : String := ""
  status : String := ""
  subtype : String := ""
  sessionId : Option String := none
  content : List Block := []
  error : Option String := none
  message : Option String := none
deriving DecidableEq, Repr

/-! ## Task manager event buffer (`TaskManager._emit_event`) -/

/-- `TaskManager.__init__`: `self._max_buffer_size = 100`. -/
def maxBufferSize : Nat := 100

/-- Buffer half of `TaskManager._emit_event`: append the event, then drop the
oldest entry if the buffer exceeds `_max_buffer_size` (`pop(0)`). -/
def emitEvent (buffer : List Event) (e : Event) : List Event :=
  if maxBufferSize < (buffer ++ [e]).length then (buffer ++ [e]).drop 1
  else buffer ++ [e]

/-- The buffer contents after emitting `events` on a freshly created task
(`create_task` initialises the buffer to `[]`). -/
def emitAll (events : List Event) : List Event :=
  events.foldl emitEvent []

theorem foldl_emitEvent_eq (es : List Event) :
    ∀ b : List Event, b.length ≤ maxBufferSize →
      es.foldl emitEvent b = (b ++ es).drop ((b ++ es).length - maxBufferSize) := by
  induction es with
  | nil =>
    intro b hb
    simp only [List.foldl_nil, List.append_nil]
    have : b.length - maxBufferSize = 0 := Nat.sub_eq_zero_of_le hb
    simp [this]
  | cons e es ih =>
    intro b hb
    have hmax : maxBufferSize = 100 := rfl
    simp only [List.foldl_cons]
    by_cases hlen : b.length + 1 ≤ maxBufferSize
    · have hemit : emitEvent b e = b ++ [e] := by
        unfold emitEvent
        simp only [List.length_append, List.length_singleton]
        rw [if_neg (by omega)]
      rw [hemit, ih (b ++ [e]) (by simp only [List.length_append, List.length_singleton]; omega)]
      simp [List.append_assoc]
    · -- buffer is full: the oldest entry is evicted
      have hfull : b.length = maxBufferSize := by omega
      have hbne : 1 ≤ b.length := by omega
      have hemit : emitEvent b e = b.drop 1 ++ [e] := by
        unfold emitEvent
        simp only [List.length_append, List.length_singleton]
        rw [if_pos (by omega), List.drop_append_of_le_length hbne]
      rw [hemit, ih (b.drop 1 ++ [e])
        (by simp only [List.length_append, List.length_drop, List.length_singleton]; omega)]
      obtain ⟨hd, tl, rfl⟩ : ∃ hd tl, b = hd :: tl := by
        cases b with
        | nil => simp at hbne
        | cons hd tl => exact ⟨hd, tl, rfl⟩
      simp only [List.drop_one, List.tail_cons]
      have h1 : (tl ++ [e] ++ es).length - maxBufferSize = es.length := by
        simp at hfull ⊢
        omega
      have h2 : ((hd :: tl) ++ e :: es).length - maxBufferSize = es.length + 1 := by
        simp at hfull ⊢
        omega
      rw [h1, h2]
      simp only [List.drop_one, List.tail_cons, List.cons_append, List.drop_succ_cons]
      simp [List.append_assoc]

theorem emitAll_eq (es : List Event) :
    emitAll es = es.drop (es.length - maxBufferSize) := by
  have := foldl_emitEvent_eq es [] (by simp)
  simpa [emitAll] using this

/-- Concrete stream of 150 pairwise distinct events. -/
def sampleEvents150 : List Event :=
  (List.range 150).map (fun i => { type := "tool_use", status := toString i })

/-- Claim C6: the per-task event buffer never holds more than 100 events,
emission preserves FIFO order with the oldest event evicted first (the buffer
always holds exactly the most recent 100 events, in emission order), and in
particular after 150 emissions exactly the last 100 events remain. -/
theorem C6_buffer_bound :
    (∀ es : List Event, (emitAll es).length ≤ maxBufferSize) ∧
    (∀ es : List Event, emitAll es = es.drop (es.length - maxBufferSize)) ∧
    emitAll sampleEvents150 = sampleEvents150.drop 50 := by
  refine ⟨?_, emitAll_eq, ?_⟩
  · intro es
    rw [emitAll_eq, List.length_drop]
    omega
  · rw [emitAll_eq]
    have : sampleEvents150.length = 150 := by
      simp [sampleEvents150]
    rw [this]
    norm_num [maxBufferSize]

/-! ## Subscription (`TaskManager.subscribe`)

`_emit_event` appends the event to the buffer and puts it on every registered
subscriber queue; `subscribe` registers a fresh queue, snapshots the buffer,
yields the snapshot, then drains the queue until a terminal event.  Neither
`_emit_event` nor the register-and-snapshot prologue of `subscribe` contains a
suspension point, so each is atomic under the asyncio scheduler; an
interleaved run is therefore determined by the split of the emission sequence
into the events emitted before registration (`pre`) and after (`post`). -/

structure SubState where
  buffer : List Event
  queue : List Event
  registered : Bool
deriving DecidableEq, Repr

/-- One `_emit_event` step as seen by a single subscriber queue: the buffer is
updated, and the event is put on the queue iff the queue is registered. -/
def emitStep (s : SubState) (e : Event) : SubState :=
  { s with
    buffer := emitEvent s.buffer e
    queue := if s.registered then s.queue ++ [e] else s.queue }

/-- Terminal events recognised by the `while` loop of `subscribe`:
a `status` event with status `completed`/`failed`/`cancelled`, or a
`result`/`error` event. -/
def isTerminalEvent (e : Event) : Bool :=
  (e.type == "status" &&
    (e.status == "completed" || e.status == "failed" || e.status == "cancelled"))
  || e.type == "result" || e.type == "error"

/-- The live phase of `subscribe`: drain the queue, stopping after the first
terminal event. -/
def takeUntilTerminal : List Event → List Event
  | [] => []
  | e :: rest => if isTerminalEvent e then [e] else e :: takeUntilTerminal rest

/-- The event sequence yielded by `subscribe(task_id)` when `pre` is emitted
before the subscriber queue is registered and `post` after: snapshot of the
buffer at registration time, then the queue contents up to the first terminal
event. -/
def subscribeOutput (pre post : List Event) : List Event :=
  let s0 : SubState := { buffer := [], queue := [], registered := false }
  let s1 := pre.foldl emitStep s0
  let s2 : SubState := { s1 with registered := true }
  let snapshot := s2.buffer
  let s3 := post.foldl emitStep s2
  snapshot ++ takeUntilTerminal s3.queue

/-- The `finally` clause of `subscribe` removes the queue it registered:
`subs` is the subscriber list before the call, `q` the fresh queue. -/
def subscribeSubscribers (subs : List Nat) (q : Nat) : List Nat :=
  (subs ++ [q]).erase q

theorem foldl_emitStep_buffer (es : List Event) :
    ∀ s : SubState, (es.foldl emitStep s).buffer = es.foldl emitEvent s.buffer := by
  induction es with
  | nil => intro s; rfl
  | cons e es ih => intro s; simp only [List.foldl_cons, ih, emitStep]

theorem foldl_emitStep_registered (es : List Event) :
    ∀ s : SubState, (es.foldl emitStep s).registered = s.registered := by
  induction es with
  | nil => intro s; rfl
  | cons e es ih => intro s; simp only [List.foldl_cons, ih, emitStep]

theorem foldl_emitStep_queue_unregistered (es : List Event) :
    ∀ s : SubState, s.registered = false → (es.foldl emitStep s).queue = s.queue := by
  induction es with
  | nil => intro s _; rfl
  | cons e es ih =>
    intro s hs
    simp only [List.foldl_cons]
    rw [ih _ (by simp [emitStep, hs])]
    simp [emitStep, hs]

theorem foldl_emitStep_queue_registered (es : List Event) :
    ∀ s : SubState, s.registered = true → (es.foldl emitStep s).queue = s.queue ++ es := by
  induction es with
  | nil => intro s _; simp
  | cons e es ih =>
    intro s hs
    simp only [List.foldl_cons]
    rw [ih _ (by simp [emitStep, hs])]
    simp [emitStep, hs]

theorem subscribeOutput_eq (pre post : List Event) :
    subscribeOutput pre post = emitAll pre ++ takeUntilTerminal post := by
  simp only [subscribeOutput]
  rw [foldl_emitStep_buffer, foldl_emitStep_queue_registered _ _ rfl,
    foldl_emitStep_queue_unregistered _ _ rfl]
  simp [emitAll]

theorem takeUntilTerminal_eq (post₁ : List Event) (e : Event) (post₂ : List Event)
    (h₁ : ∀ x ∈ post₁, isTerminalEvent x = false) (he : isTerminalEvent e = true) :
    takeUntilTerminal (post₁ ++ e :: post₂) = post₁ ++ [e] := by
  induction post₁ with
  | nil => simp [takeUntilTerminal, he]
  | cons x xs ih =>
    have hx : isTerminalEvent x = false := h₁ x (by simp)
    have ih' := ih (fun y hy => h₁ y (by simp [hy]))
    simp [takeUntilTerminal, hx, ih']

/-- 101 distinct non-terminal events, more than the buffer capacity. -/
def preC1 : List Event :=
  (List.range 101).map (fun i => { type := "tool_use", status := toString i })

/-- A terminal `result` event. -/
def resultEventC1 : Event := { type := "result" }

/-- Claim C1 as stated is false: when more than `maxBufferSize` events are
emitted before the subscription starts, the buffer has evicted the oldest
ones, so the subscriber does not receive every event emitted for the task.
Here 101 events precede the subscription and the terminal `result` event
arrives live: the yielded sequence is not the full emission sequence (the
first event is missing). -/
theorem C1_counterexample :
    ¬ subscribeOutput preC1 [resultEventC1] = preC1 ++ [resultEventC1] := by
  intro h
  have hlen : (subscribeOutput preC1 [resultEventC1]).length
      = (preC1 ++ [resultEventC1]).length := by rw [h]
  rw [subscribeOutput_eq, emitAll_eq] at hlen
  have h101 : preC1.length = 101 := by simp [preC1]
  have ht : takeUntilTerminal [resultEventC1] = [resultEventC1] := rfl
  rw [ht] at hlen
  simp [h101, maxBufferSize] at hlen

/-- Claim C1, amended: for a subscription started before the terminal event,
`subscribe` yields every event *still in the buffer at registration time*
(equivalently, every event emitted so far, whenever at most `maxBufferSize`
events preceded the subscription) followed by every live event, in emission
order with no duplicate and no gap, the sequence terminating with the first
terminal event; and the subscriber queue registered by the call is removed
again on exit. -/
theorem C1_amended (pre post₁ post₂ : List Event) (e : Event)
    (subs : List Nat) (q : Nat)
    (hlen : pre.length ≤ maxBufferSize)
    (hpost : ∀ x ∈ post₁, isTerminalEvent x = false)
    (he : isTerminalEvent e = true)
    (hq : q ∉ subs) :
    subscribeOutput pre (post₁ ++ e :: post₂) = pre ++ post₁ ++ [e] ∧
    subscribeSubscribers subs q = subs := by
  constructor
  · rw [subscribeOutput_eq, emitAll_eq, takeUntilTerminal_eq post₁ e post₂ hpost he,
      Nat.sub_eq_zero_of_le hlen]
    simp
  · unfold subscribeSubscribers
    rw [List.erase_append_right _ hq]
    simp

theorem C1_amended_witness :
    subscribeOutput [] ([] ++ resultEventC1 :: []) = [] ++ [] ++ [resultEventC1] ∧
    subscribeSubscribers [] 0 = [] :=
  C1_amended [] [] [] resultEventC1 [] 0 (by simp) (by simp) (by rfl)
    (by simp)

/-! ## Rate limiter (`_TokenBucketRateLimiter.is_allowed`)

Per-sender sliding window of admission timestamps.  `time.time()` values are
modelled as rationals and supplied explicitly; the per-sender window list is
threaded through the call. -/

/-- `_TokenBucketRateLimiter.is_allowed` for one sender: returns the verdict
and the updated window.  Timestamps older than 60 seconds are evicted first
(`ts > now - 60` survives), then the call is admitted (appending `now`) iff
the remaining count is below `max_per_minute`; `max_per_minute <= 0` means
unlimited and touches nothing. -/
def is_allowed (window : List ℚ) (now : ℚ) (max_per_minute : Int) : Bool × List ℚ :=
  if max_per_minute ≤ 0 then (true, window)
  else
    let w := window.filter (fun ts => now - 60 < ts)
    if max_per_minute ≤ (w.length : Int) then (false, w)
    else (true, w ++ [now])

/-- A sequence of `is_allowed` calls for one sender at the given times,
collecting the verdicts and threading the window. -/
def runCalls (window : List ℚ) (times : List ℚ) (max_per_minute : Int) :
    List Bool × List ℚ :=
  times.foldl
    (fun acc t =>
      let r := is_allowed acc.2 t max_per_minute
      (acc.1 ++ [r.1], r.2))
    ([], window)

theorem runCalls_admitted (N : Nat) (hN : 1 ≤ N) (times : List ℚ) :
    ∀ (w : List ℚ) (rs : List Bool),
      (∀ x ∈ w, ∀ t ∈ times, x ≤ t ∧ t - x < 60) →
      times.Pairwise (fun a b => a ≤ b ∧ b - a < 60) →
      w.length + times.length ≤ N →
      times.foldl
        (fun acc t =>
          let r := is_allowed acc.2 t (N : Int)
          (acc.1 ++ [r.1], r.2))
        (rs, w)
      = (rs ++ List.replicate times.length true, w ++ times) := by
  induction times with
  | nil => intro w rs _ _ _; simp
  | cons t ts ih =>
    intro w rs hw hpair hlen
    have hfil : w.filter (fun x => decide (t - 60 < x)) = w := by
      apply List.filter_eq_self.mpr
      intro x hx
      have := (hw x hx t (by simp)).2
      simp only [decide_eq_true_eq]
      linarith
    have hstep : is_allowed w t (N : Int) = (true, w ++ [t]) := by
      unfold is_allowed
      rw [if_neg (by omega)]
      simp only [hfil]
      rw [if_neg (by simp at hlen ⊢; omega)]
    simp only [List.foldl_cons, hstep]
    rw [ih (w ++ [t]) (rs ++ [true]) ?_ ?_ ?_]
    · simp [List.append_assoc, List.replicate_succ]
    · intro x hx s hs
      rcases List.mem_append.mp hx with hxw | hxt
      · exact hw x hxw s (by simp [hs])
      · have hx' : x = t := by simpa using hxt
        subst hx'
        exact (List.pairwise_cons.mp hpair).1 s hs
    · exact (List.pairwise_cons.mp hpair).2
    · simp at hlen ⊢; omega

/-- Claim C5: with `max_per_minute = N ≥ 1`, starting from an empty window,
exactly `N` calls within a 60-second window are admitted and the `(N+1)`-th is
rejected; eviction happens first on every call, so once the window slides past
the oldest admitted timestamp exactly one unit of capacity frees up (one more
admission, then rejection again); and `max_per_minute ≤ 0` admits every call. -/
theorem C5_rate_limiter (N : Nat) (t₁ : ℚ) (rest : List ℚ) (tNext u : ℚ)
    (hN : 1 ≤ N)
    (hlen : (t₁ :: rest).length = N)
    (hpair : ((t₁ :: rest) ++ [tNext]).Pairwise (fun a b => a ≤ b ∧ b - a < 60))
    (hevict : t₁ ≤ u - 60)
    (hkeep : ∀ s ∈ rest, u - 60 < s) :
    runCalls [] (t₁ :: rest) (N : Int) = (List.replicate N true, t₁ :: rest) ∧
    is_allowed (t₁ :: rest) tNext (N : Int) = (false, t₁ :: rest) ∧
    is_allowed (t₁ :: rest) u (N : Int) = (true, rest ++ [u]) ∧
    is_allowed (rest ++ [u]) u (N : Int) = (false, rest ++ [u]) ∧
    (∀ (w : List ℚ) (now : ℚ) (M : Int), M ≤ 0 → (is_allowed w now M).1 = true) := by
  obtain ⟨hpairts, _, hcross⟩ := List.pairwise_append.mp hpair
  refine ⟨?_, ?_, ?_, ?_, ?_⟩
  · have := runCalls_admitted N hN (t₁ :: rest) [] []
      (by intro x hx; simp at hx) hpairts
      (by simp only [List.length_nil, Nat.zero_add]; omega)
    unfold runCalls
    rw [this]
    simp [hlen]
  · unfold is_allowed
    rw [if_neg (by omega)]
    have hfil : (t₁ :: rest).filter (fun x => decide (tNext - 60 < x)) = t₁ :: rest := by
      apply List.filter_eq_self.mpr
      intro x hx
      have := (hcross x hx tNext (by simp)).2
      simp only [decide_eq_true_eq]
      linarith
    simp only [hfil]
    rw [if_pos (by rw [hlen])]
  · unfold is_allowed
    rw [if_neg (by omega)]
    have hfil : (t₁ :: rest).filter (fun x => decide (u - 60 < x)) = rest := by
      have h1 : ¬ (u - 60 < t₁) := by linarith
      have h2 : rest.filter (fun x => decide (u - 60 < x)) = rest :=
        List.filter_eq_self.mpr (fun x hx => by simpa using hkeep x hx)
      simp [List.filter_cons, h1, h2]
    simp only [hfil]
    rw [if_neg (by simp at hlen; omega)]
  · unfold is_allowed
    rw [if_neg (by omega)]
    have hfil : (rest ++ [u]).filter (fun x => decide (u - 60 < x)) = rest ++ [u] := by
      apply List.filter_eq_self.mpr
      intro x hx
      rcases List.mem_append.mp hx with hxr | hxu
      · simpa using hkeep x hxr
      · have hx' : x = u := by simpa using hxu
        subst hx'
        simp only [decide_eq_true_eq]
        linarith
    simp only [hfil]
    rw [if_pos (by simp at hlen ⊢; omega)]
  · intro w now M hM
    unfold is_allowed
    rw [if_pos hM]

theorem C5_rate_limiter_witness :
    runCalls [] [(0 : ℚ)] ((1 : Nat) : Int) = (List.replicate 1 true, [(0 : ℚ)]) ∧
    is_allowed [(0 : ℚ)] 1 ((1 : Nat) : Int) = (false, [(0 : ℚ)]) ∧
    is_allowed [(0 : ℚ)] 61 ((1 : Nat) : Int) = (true, [] ++ [(61 : ℚ)]) ∧
    is_allowed ([] ++ [(61 : ℚ)]) 61 ((1 : Nat) : Int) = (false, [] ++ [(61 : ℚ)]) ∧
    (∀ (w : List ℚ) (now : ℚ) (M : Int), M ≤ 0 → (is_allowed w now M).1 = true) :=
  C5_rate_limiter 1 0 [] 1 61 (by norm_num) (by norm_num)
    (by norm_num [List.pairwise_cons]) (by norm_num) (by simp)

/-! ## Channel records and access control (`ChannelGateway._check_access`)

A channel record is a Python dict; `access_mode = none` models a dict with no
`access_mode` key (`channel_config.get("access_mode", "allowlist")`).  The
`allowed_senders` / `blocked_senders` value may be a list or a serialized
string that the code parses with `json.loads`; the JSON parser itself is
external to the gateway and passed as a function, `none` meaning
`json.JSONDecodeError`. -/

inductive SendersValue where
  | asList : List String → SendersValue
  | asStr : String → SendersValue
deriving DecidableEq, Repr

/-- `isinstance(allowed, str)` branch of `_check_access`: a serialized value
is parsed, a parse failure yields the empty list. -/
def sendersList (parse : String → Option (List String)) : SendersValue → List String
  | .asList l => l
  | .asStr s => (parse s).getD []

structure ChannelRec where
  channel_type : String := ""
  agent_id : Option String := none
  status : String := "inactive"
  error_message : Option String := none
  access_mode : Option String := none
  allowed_senders : SendersValue := .asList []
  blocked_senders : SendersValue := .asList []
deriving DecidableEq, Repr

/-- `ChannelGateway._check_access`.  `parse` stands for `json.loads`
restricted to lists of strings. -/
def check_access (parse : String → Option (List String))
    (channel_config : ChannelRec) (sender_id : String) : Bool :=
  let access_mode := channel_config.access_mode.getD "allowlist"
  if access_mode == "open" then true
  else if access_mode == "allowlist" then
    decide (sender_id ∈ sendersList parse channel_config.allowed_senders)
  else if access_mode == "blocklist" then
    !decide (sender_id ∈ sendersList parse channel_config.blocked_senders)
  else false

/-- Claim C4: access control is a pure function of the mode, the two sender
lists and the sender id: `open` allows everyone; `allowlist` allows exactly
the members of `allowed_senders`, an unparsable serialized list counting as
empty (hence deny-all) and the empty allowlist denying everyone; `blocklist`
allows exactly the non-members of `blocked_senders`, an unparsable list
counting as empty (hence allow-all); any other mode denies everyone. -/
theorem C4_access_control (parse : String → Option (List String))
    (cfg : ChannelRec) (sender : String) :
    (cfg.access_mode = some "open" → check_access parse cfg sender = true) ∧
    (cfg.access_mode = some "allowlist" →
      (check_access parse cfg sender = true ↔
        sender ∈ sendersList parse cfg.allowed_senders)) ∧
    (∀ s, cfg.access_mode = some "allowlist" → cfg.allowed_senders = .asStr s →
      parse s = none → check_access parse cfg sender = false) ∧
    (cfg.access_mode = some "allowlist" → cfg.allowed_senders = .asList [] →
      check_access parse cfg sender = false) ∧
    (cfg.access_mode = some "blocklist" →
      (check_access parse cfg sender = true ↔
        sender ∉ sendersList parse cfg.blocked_senders)) ∧
    (∀ s, cfg.access_mode = some "blocklist" → cfg.blocked_senders = .asStr s →
      parse s = none → check_access parse cfg sender = true) ∧
    (∀ m, cfg.access_mode = some m → m ≠ "open" → m ≠ "allowlist" →
      m ≠ "blocklist" → check_access parse cfg sender = false) := by
  refine ⟨?_, ?_, ?_, ?_, ?_, ?_, ?_⟩
  · intro h
    simp [check_access, h]
  · intro h
    simp [check_access, h]
  · intro s h hs hp
    simp [check_access, h, hs, sendersList, hp]
  · intro h hs
    simp [check_access, h, hs, sendersList]
  · intro h
    simp [check_access, h]
  · intro s h hs hp
    simp [check_access, h, hs, sendersList, hp]
  · intro m h h1 h2 h3
    simp only [check_access, h, Option.getD_some]
    rw [if_neg (by simp [h1]), if_neg (by simp [h2]), if_neg (by simp [h3])]

theorem C4_access_control_witness :
    check_access (fun _ => none) { access_mode := some "open" } "U1" = true :=
  (C4_access_control (fun _ => none) { access_mode := some "open" } "U1").1 rfl

/-- Claim C9: a channel record with no `access_mode` key behaves as allowlist
mode (`channel_config.get("access_mode", "allowlist")`): a sender is allowed
iff it is in `allowed_senders`; absence of the key is not an unconditional
deny. -/
theorem C9_default_access_mode (parse : String → Option (List String))
    (cfg : ChannelRec) (sender : String) (h : cfg.access_mode = none) :
    check_access parse cfg sender = true ↔
      sender ∈ sendersList parse cfg.allowed_senders := by
  simp [check_access, h]

theorem C9_default_access_mode_witness :
    check_access (fun _ => none)
      { access_mode := none, allowed_senders := .asList ["U1"] } "U1" = true :=
  (C9_default_access_mode (fun _ => none)
    { access_mode := none, allowed_senders := .asList ["U1"] } "U1" rfl).mpr
    (by simp [sendersList])

/-! ## Gateway lifecycle (`ChannelGateway.stop_channel`)

Gateway in-memory state: the three dicts `_adapters`, `_tasks` and
`_channel_cache`, keyed by channel id (adapter and task objects are reduced to
their keys).  The persisted channel table is an association list. -/

/-- Python dict lookup on an association list (first binding wins). -/
def lookupRec {α : Type} : List (String × α) → String → Option α
  | [], _ => none
  | p :: rest, k => if p.1 == k then some p.2 else lookupRec rest k

structure GatewayState where
  adapters : List String
  tasks : List String
  channel_cache : List (String × ChannelRec)
deriving DecidableEq, Repr

/-- Modelled from the spec: `db.channels.update(id, fields)` of the persisted
record store (implementation not under `src/`); merges the given fields into
the record with that id, and is a no-op when the id is absent. -/
def db_channels_update (dbCh : List (String × ChannelRec)) (cid : String)
    (f : ChannelRec → ChannelRec) : List (String × ChannelRec) :=
  dbCh.map (fun p => if p.1 == cid then (p.1, f p.2) else p)

/-- `ChannelGateway.stop_channel`: pop the adapter, the supervising task and
the cache entry (no-ops when absent), call `adapter.stop()` and cancel the
task (external effects), then unconditionally persist `status="inactive"`
with `error_message=None`. -/
def stop_channel (st : GatewayState) (dbCh : List (String × ChannelRec))
    (cid : String) : GatewayState × List (String × ChannelRec) :=
  let st' : GatewayState :=
    { adapters := st.adapters.filter (fun x => x != cid)
      tasks := st.tasks.filter (fun x => x != cid)
      channel_cache := st.channel_cache.filter (fun p => p.1 != cid) }
  (st', db_channels_update dbCh cid
    (fun ch => { ch with status := "inactive", error_message := none }))

theorem lookupRec_filter_self {α : Type} (l : List (String × α)) (cid : String) :
    lookupRec (l.filter (fun p => p.1 != cid)) cid = none := by
  induction l with
  | nil => rfl
  | cons p rest ih =>
    by_cases hp : p.1 = cid
    · simp [List.filter_cons, hp, ih]
    · simp [List.filter_cons, hp, lookupRec, ih]

theorem lookupRec_filter_ne {α : Type} (l : List (String × α)) (cid k : String)
    (hk : k ≠ cid) :
    lookupRec (l.filter (fun p => p.1 != cid)) k = lookupRec l k := by
  induction l with
  | nil => rfl
  | cons p rest ih =>
    by_cases hp : p.1 = cid
    · have h3 : ¬ (cid = k) := fun h => hk h.symm
      simp [List.filter_cons, hp, lookupRec, h3, ih]
    · simp only [List.filter_cons, bne_iff_ne, ne_eq, hp, not_false_eq_true, if_true]
      simp [lookupRec, ih]

theorem lookupRec_update_self (l : List (String × ChannelRec)) (cid : String)
    (f : ChannelRec → ChannelRec) :
    lookupRec (db_channels_update l cid f) cid = (lookupRec l cid).map f := by
  induction l with
  | nil => rfl
  | cons p rest ih =>
    by_cases hp : p.1 = cid
    · simp [db_channels_update, lookupRec, hp] at ih ⊢
    · simp [db_channels_update, lookupRec, hp] at ih ⊢
      exact ih

theorem lookupRec_update_ne (l : List (String × ChannelRec)) (cid k : String)
    (f : ChannelRec → ChannelRec) (hk : k ≠ cid) :
    lookupRec (db_channels_update l cid f) k = lookupRec l k := by
  induction l with
  | nil => rfl
  | cons p rest ih =>
    by_cases hp : p.1 = cid
    · have h3 : ¬ (cid = k) := fun h => hk h.symm
      simp [db_channels_update] at ih ⊢
      simp [lookupRec, hp, h3, ih]
    · simp [db_channels_update] at ih ⊢
      simp [lookupRec, hp, ih]

def dbC7 : List (String × ChannelRec) :=
  [("c1", { status := "error", error_message := some "adapter crashed" })]

/-- Claim C7 as stated is false: `stop_channel` on a channel with no running
adapter still persists `status="inactive"` and clears `error_message` — the
persisted record is not left unchanged.  Concretely, a channel in status
`error` is flipped to `inactive` by stopping it while not running. -/
theorem C7_counterexample :
    ¬ (stop_channel { adapters := [], tasks := [], channel_cache := [] } dbC7 "c1").2
      = dbC7 := by
  decide

/-- Claim C7, amended: for a channel id with no running adapter and no
supervising task, `stop_channel` leaves the adapter and task maps unchanged
and other channels untouched (in cache and store), removes the channel's
cache entry, and always persists `status="inactive"` with `error_message`
cleared on the channel's record. -/
theorem C7_amended (st : GatewayState) (dbCh : List (String × ChannelRec))
    (cid : String) (ha : cid ∉ st.adapters) (ht : cid ∉ st.tasks) :
    (stop_channel st dbCh cid).1.adapters = st.adapters ∧
    (stop_channel st dbCh cid).1.tasks = st.tasks ∧
    lookupRec (stop_channel st dbCh cid).1.channel_cache cid = none ∧
    (∀ k, k ≠ cid → lookupRec (stop_channel st dbCh cid).1.channel_cache k
      = lookupRec st.channel_cache k) ∧
    lookupRec (stop_channel st dbCh cid).2 cid
      = (lookupRec dbCh cid).map
          (fun ch => { ch with status := "inactive", error_message := none }) ∧
    (∀ k, k ≠ cid → lookupRec (stop_channel st dbCh cid).2 k = lookupRec dbCh k) := by
  have hsnd : (stop_channel st dbCh cid).2
      = db_channels_update dbCh cid
          (fun ch => { ch with status := "inactive", error_message := none }) := rfl
  rw [hsnd]
  refine ⟨?_, ?_, ?_, ?_, ?_, ?_⟩
  · exact List.filter_eq_self.mpr (fun x hx => by
      simp only [bne_iff_ne, ne_eq, decide_eq_true_eq]
      exact fun h => ha (h ▸ hx))
  · exact List.filter_eq_self.mpr (fun x hx => by
      simp only [bne_iff_ne, ne_eq, decide_eq_true_eq]
      exact fun h => ht (h ▸ hx))
  · exact lookupRec_filter_self _ _
  · intro k hk
    exact lookupRec_filter_ne _ _ _ hk
  · exact lookupRec_update_self _ _ _
  · intro k hk
    exact lookupRec_update_ne _ _ _ _ hk

theorem C7_amended_witness :
    (stop_channel { adapters := [], tasks := [], channel_cache := [] } dbC7 "c1").1.adapters
      = [] ∧
    (stop_channel { adapters := [], tasks := [], channel_cache := [] } dbC7 "c1").1.tasks
      = [] ∧
    lookupRec (stop_channel { adapters := [], tasks := [], channel_cache := [] }
      dbC7 "c1").1.channel_cache "c1" = none ∧
    (∀ k, k ≠ "c1" →
      lookupRec (stop_channel { adapters := [], tasks := [], channel_cache := [] }
        dbC7 "c1").1.channel_cache k = lookupRec [] k) ∧
    lookupRec (stop_channel { adapters := [], tasks := [], channel_cache := [] }
      dbC7 "c1").2 "c1"
      = (lookupRec dbC7 "c1").map
          (fun ch => { ch with status := "inactive", error_message := none }) ∧
    (∀ k, k ≠ "c1" →
      lookupRec (stop_channel { adapters := [], tasks := [], channel_cache := [] }
        dbC7 "c1").2 k = lookupRec dbC7 k) :=
  C7_amended { adapters := [], tasks := [], channel_cache := [] } dbC7 "c1"
    (by simp) (by simp)

/-! ## Channel runtime status (`ChannelGateway.get_channel_status`)

The two `db.channels.get` reads (one for the fallback status, one for the
error message), and the `db.channel_sessions.count_by_channel` read, are
modelled as explicit `Except` results of the persisted store; only the count
is wrapped in `try/except` in the source. -/

structure ChannelStatusResult where
  status : String
  active_sessions : Nat
  error_message : Option String
deriving DecidableEq, Repr

/-- `ChannelGateway.get_channel_status`: `is_running` is
`channel_id in self._adapters`, `cached` is `self._channel_cache.get(id)`,
`get_status` / `get_error` are the two `db.channels.get(id)` calls and
`count_sessions` the `count_by_channel` call. -/
def get_channel_status (is_running : Bool) (cached : Option ChannelRec)
    (get_status : Except String (Option ChannelRec))
    (count_sessions : Except String Nat)
    (get_error : Except String (Option ChannelRec)) :
    Except String ChannelStatusResult := do
  let status ←
    if is_running then pure "active"
    else do
      let ch ← get_status
      pure (match ch with | some c => c.status | none => "inactive")
  let active_sessions :=
    match count_sessions with
    | .ok n => n
    | .error _ => 0
  let error_message ←
    match cached with
    | some c => pure c.error_message
    | none =>
      if is_running then pure none
      else do
        let ch ← get_error
        pure (match ch with | some c => c.error_message | none => none)
  pure { status := status, active_sessions := active_sessions,
         error_message := error_message }

/-- Claim C8 as stated is false: a persisted-store failure raised while
fetching the error message (the second `db.channels.get`, reached when the
channel is neither running nor cached) is not swallowed — it propagates out
of `get_channel_status` instead of defaulting `error_message` to `None`. -/
theorem C8_counterexample :
    get_channel_status false none (.ok none) (.ok 0) (.error "db failure")
      = .error "db failure" := by
  rfl

/-- Claim C8, amended: only the session-count fetch is best-effort — a
failure of `count_by_channel` is swallowed and behaves exactly like a count
of zero — whereas a failure of the channel-record fetch used for the error
message (not running, not cached) propagates. -/
theorem C8_amended :
    (∀ (r : Bool) (c : Option ChannelRec)
      (g1 g2 : Except String (Option ChannelRec)) (e : String),
      get_channel_status r c g1 (.error e) g2
        = get_channel_status r c g1 (.ok 0) g2) ∧
    (∀ (ch : Option ChannelRec) (cnt : Except String Nat) (e : String),
      get_channel_status false none (.ok ch) cnt (.error e) = .error e) := by
  constructor
  · intro r c g1 g2 e
    rfl
  · intro ch cnt e
    rfl

/-! ## Session resolution (`ChannelGateway._resolve_session`) -/

structure ChannelSessionRec where
  id : String
  channel_id : String
  external_chat_id : String
  external_sender_id : String
  external_thread_id : Option String
  session_id : String
  agent_id : String
  sender_display_name : Option String
  last_message_at : String
  message_count : Nat
deriving DecidableEq, Repr

structure SessionRec where
  session_id : String
  agent_id : String
  title : String
deriving DecidableEq, Repr

/-- Python `a or b` for an optional string: falls back when the value is
`None` or empty. -/
def pyOr (a : Option String) (b : String) : String :=
  match a with
  | some s => if s == "" then b else s
  | none => b

/-- Modelled from the spec: `db.channel_sessions.find_by_external` of the
persisted record store (implementation not under `src/`): the record matching
the `(channel_id, external_chat_id, external_thread_id)` tuple, if any. -/
def find_by_external (store : List ChannelSessionRec)
    (channel_id external_chat_id : String) (external_thread_id : Option String) :
    Option ChannelSessionRec :=
  store.find? (fun cs => cs.channel_id == channel_id
    && cs.external_chat_id == external_chat_id
    && cs.external_thread_id == external_thread_id)

structure ResolveResult where
  session_id : String
  channel_session_id : String
  is_new : Bool
  store : List ChannelSessionRec
  sessions : List SessionRec
deriving DecidableEq, Repr

/-- `ChannelGateway._resolve_session`.  `fresh_session` and `fresh_cs` stand
for the two `uuid4()` draws and `now` for `datetime.now().isoformat()`; the
`channel_sessions` table and the internal sessions table
(`session_manager.store_session`, modelled from the spec as appending the new
record) are threaded explicitly. -/
def resolve_session (store : List ChannelSessionRec) (sessions : List SessionRec)
    (channel_id agent_id external_chat_id external_sender_id : String)
    (external_thread_id sender_display_name : Option String)
    (fresh_session fresh_cs now : String) : ResolveResult :=
  match find_by_external store channel_id external_chat_id external_thread_id with
  | some existing =>
    { session_id := existing.session_id
      channel_session_id := existing.id
      is_new := existing.message_count == 0
      store := store
      sessions := sessions }
  | none =>
    let title := "Channel: " ++ pyOr sender_display_name external_sender_id
    let cs : ChannelSessionRec :=
      { id := fresh_cs
        channel_id := channel_id
        external_chat_id := external_chat_id
        external_sender_id := external_sender_id
        external_thread_id := external_thread_id
        session_id := fresh_session
        agent_id := agent_id
        sender_display_name := sender_display_name
        last_message_at := now
        message_count := 0 }
    { session_id := fresh_session
      channel_session_id := fresh_cs
      is_new := true
      store := store ++ [cs]
      sessions := sessions ++ [{ session_id := fresh_session, agent_id := agent_id,
                                 title := title }] }

/-- The internal session record stored by the fresh branch of
`_resolve_session` (`session_manager.store_session`). -/
def newSessionRow (aid sender : String) (display : Option String)
    (f1 : String) : SessionRec :=
  { session_id := f1
    agent_id := aid
    title := "Channel: " ++ pyOr display sender }

/-- The ChannelSession row inserted by the fresh branch of
`_resolve_session`. -/
def newChannelSessionRow (cid aid chat sender : String)
    (thread display : Option String) (f1 f2 now : String) : ChannelSessionRec :=
  { id := f2
    channel_id := cid
    external_chat_id := chat
    external_sender_id := sender
    external_thread_id := thread
    session_id := f1
    agent_id := aid
    sender_display_name := display
    last_message_at := now
    message_count := 0 }

theorem find?_append_none {α : Type} (l₁ l₂ : List α) (p : α → Bool)
    (h : l₁.find? p = none) : (l₁ ++ l₂).find? p = l₂.find? p := by
  induction l₁ with
  | nil => rfl
  | cons a l ih =>
    cases hpa : p a
    · simp only [List.cons_append, List.find?_cons, hpa] at h ⊢
      exact ih h
    · simp only [List.find?_cons, hpa] at h
      exact Option.noConfusion h

/-- Claim C3: session resolution is sequentially idempotent — two sequential
calls for the same `(channel_id, external_chat_id, external_thread_id)` tuple
return the same `channel_session_id` (and the same `session_id`); when an
existing row is found the call changes nothing and returns
`is_new = (message_count == 0)`; when none is found a fresh internal session
record and a ChannelSession row with `message_count = 0` are persisted and
`is_new = true` is returned. -/
theorem C3_session_resolution (store : List ChannelSessionRec)
    (sessions : List SessionRec)
    (cid aid chat sender : String) (thread display : Option String)
    (f1 f2 now1 g1 g2 now2 : String) :
    let r1 := resolve_session store sessions cid aid chat sender thread display
      f1 f2 now1
    let r2 := resolve_session r1.store r1.sessions cid aid chat sender thread
      display g1 g2 now2
    (r2.channel_session_id = r1.channel_session_id ∧
      r2.session_id = r1.session_id) ∧
    (∀ ex, find_by_external store cid chat thread = some ex →
      r1 = { session_id := ex.session_id, channel_session_id := ex.id,
             is_new := ex.message_count == 0, store := store,
             sessions := sessions }) ∧
    (find_by_external store cid chat thread = none →
      r1.is_new = true ∧ r1.session_id = f1 ∧ r1.channel_session_id = f2 ∧
      r1.store = store ++ [newChannelSessionRow cid aid chat sender thread
        display f1 f2 now1] ∧
      (newChannelSessionRow cid aid chat sender thread display f1 f2
        now1).message_count = 0 ∧
      r1.sessions = sessions ++ [newSessionRow aid sender display f1]) := by
  dsimp only
  cases hfind : find_by_external store cid chat thread with
  | some ex =>
    have hr1 : resolve_session store sessions cid aid chat sender thread display
        f1 f2 now1
        = { session_id := ex.session_id, channel_session_id := ex.id,
            is_new := ex.message_count == 0, store := store,
            sessions := sessions } := by
      unfold resolve_session
      rw [hfind]
    have hr2 : resolve_session store sessions cid aid chat sender thread display
        g1 g2 now2
        = { session_id := ex.session_id, channel_session_id := ex.id,
            is_new := ex.message_count == 0, store := store,
            sessions := sessions } := by
      unfold resolve_session
      rw [hfind]
    refine ⟨?_, ?_, ?_⟩
    · simp [hr1, hr2]
    · intro ex' hex'
      have hx : ex = ex' := Option.some.inj hex'
      rw [← hx]
      exact hr1
    · intro hnone
      exact Option.noConfusion hnone
  | none =>
    have hfind2 : find_by_external
        (store ++ [newChannelSessionRow cid aid chat sender thread display
          f1 f2 now1]) cid chat thread
        = some (newChannelSessionRow cid aid chat sender thread display
          f1 f2 now1) := by
      unfold find_by_external at hfind ⊢
      rw [find?_append_none _ _ _ hfind]
      simp [newChannelSessionRow]
    have hr1 : resolve_session store sessions cid aid chat sender thread display
        f1 f2 now1
        = { session_id := f1, channel_session_id := f2, is_new := true,
            store := store ++ [newChannelSessionRow cid aid chat sender thread
              display f1 f2 now1],
            sessions := sessions ++ [newSessionRow aid sender display f1] } := by
      unfold resolve_session
      rw [hfind]
      rfl
    have hr2 : resolve_session
        (store ++ [newChannelSessionRow cid aid chat sender thread display
          f1 f2 now1])
        (sessions ++ [newSessionRow aid sender display f1])
        cid aid chat sender thread display g1 g2 now2
        = { session_id := f1, channel_session_id := f2, is_new := true,
            store := store ++ [newChannelSessionRow cid aid chat sender thread
              display f1 f2 now1],
            sessions := sessions ++ [newSessionRow aid sender display f1] } := by
      unfold resolve_session
      rw [hfind2]
      rfl
    refine ⟨?_, ?_, ?_⟩
    · simp [hr1, hr2]
    · intro ex' hex'
      exact Option.noConfusion hex'
    · intro _
      simp [hr1, newChannelSessionRow]

theorem C3_session_resolution_witness :
    ((resolve_session
        (resolve_session [] [] "c" "a" "chat" "u" none none "s1" "cs1" "t1").store
        (resolve_session [] [] "c" "a" "chat" "u" none none "s1" "cs1" "t1").sessions
        "c" "a" "chat" "u" none none "s2" "cs2" "t2").channel_session_id
      = (resolve_session [] [] "c" "a" "chat" "u" none none
          "s1" "cs1" "t1").channel_session_id ∧
     (resolve_session
        (resolve_session [] [] "c" "a" "chat" "u" none none "s1" "cs1" "t1").store
        (resolve_session [] [] "c" "a" "chat" "u" none none "s1" "cs1" "t1").sessions
        "c" "a" "chat" "u" none none "s2" "cs2" "t2").session_id
      = (resolve_session [] [] "c" "a" "chat" "u" none none
          "s1" "cs1" "t1").session_id) ∧
    (resolve_session [] [] "c" "a" "chat" "u" none none "s1" "cs1" "t1").is_new
      = true := by
  have h := C3_session_resolution [] [] "c" "a" "chat" "u" none none
    "s1" "cs1" "t1" "s2" "cs2" "t2"
  exact ⟨h.1, (h.2.2 rfl).1⟩

/-! ## Inbound exchange (`ChannelGateway.handle_inbound_message`, steps 4-11)

The engine stream consumption loop and the final session-counter update.
The engine (`agent_manager.run_conversation`) is external: one exchange sees a
list of events, optionally cut short by an exception (`raised`). -/

structure EngineOutcome where
  events : List Event
  raised : Bool
deriving DecidableEq, Repr

structure ExchangeFold where
  reply_text : String
  error_occurred : Bool
  session_id : String
  store : List ChannelSessionRec
deriving DecidableEq, Repr

/-- Python substring test `needle in hay` (for non-empty `needle`). -/
def strContains (hay needle : String) : Bool :=
  decide (2 ≤ (hay.splitOn needle).length)

def pyTruthy (o : Option String) : Option String :=
  match o with
  | some s => if s == "" then none else some s
  | none => none

/-- `event.get("error") or event.get("message") or subtype`. -/
def errorDetail (e : Event) : String :=
  match pyTruthy e.error with
  | some s => s
  | none =>
    match pyTruthy e.message with
    | some s => s
    | none => e.subtype

/-- The `assistant` branch: concatenate the text of every text block. -/
def assistantText (content : List Block) : String :=
  content.foldl
    (fun acc b => if b.type == "text" && b.text != "" then acc ++ b.text else acc)
    ""

/-- Modelled from the spec: `db.channel_sessions.update(csid, fields)` of the
persisted record store (implementation not under `src/`); merges fields into
the record with that id. -/
def db_update_session (store : List ChannelSessionRec) (csid : String)
    (f : ChannelSessionRec → ChannelSessionRec) : List ChannelSessionRec :=
  store.map (fun cs => if cs.id == csid then f cs else cs)

/-- Modelled from the spec: `db.channel_sessions.get(csid)`. -/
def get_by_id (store : List ChannelSessionRec) (csid : String) :
    Option ChannelSessionRec :=
  store.find? (fun cs => cs.id == csid)

/-- One iteration of the `async for event in run_conversation(...)` loop of
`handle_inbound_message`. -/
def processEvent (csid : String) (st : ExchangeFold) (e : Event) : ExchangeFold :=
  if e.type == "assistant" then
    if assistantText e.content != "" then
      { st with reply_text := assistantText e.content }
    else st
  else if e.type == "session_start" then
    -- `new_sid = event.get("sessionId"); if new_sid and new_sid != session_id`
    -- (both `None` and `""` are falsy, so `None` is folded into `""`)
    if e.sessionId.getD "" != "" && e.sessionId.getD "" != st.session_id then
      { st with
        session_id := e.sessionId.getD ""
        store := db_update_session st.store csid
          (fun cs => { cs with session_id := e.sessionId.getD "" }) }
    else st
  else if e.type == "result" then
    if e.subtype != "" && strContains e.subtype "error" then
      { st with
        reply_text := if st.reply_text == "" then
            "Sorry, the agent encountered an error: " ++ errorDetail e
          else st.reply_text
        error_occurred := true }
    else st
  else if e.type == "error" then
    { st with
      reply_text := if st.reply_text == "" then
          "Sorry, I encountered an error processing your request."
        else st.reply_text
      error_occurred := true }
  else st

/-- The whole stream-consumption `try` block: fold the events, then apply the
`except` clause when the stream raised. -/
def runEngineStream (csid sid0 : String) (store : List ChannelSessionRec)
    (o : EngineOutcome) : ExchangeFold :=
  let st := o.events.foldl (processEvent csid)
    { reply_text := "", error_occurred := false, session_id := sid0,
      store := store }
  if o.raised then
    { st with
      reply_text := "Sorry, an unexpected error occurred. Please try again later."
      error_occurred := true }
  else st

/-- Whether one event flips `error_occurred`. -/
def errEventB (e : Event) : Bool :=
  e.type == "error" ||
    (e.type == "result" && e.subtype != "" && strContains e.subtype "error")

/-- Whether an exchange with this engine outcome is recorded as errored. -/
def engineErrored (o : EngineOutcome) : Bool :=
  o.raised || o.events.any errEventB

/-- Step 11 of `handle_inbound_message`: always set `last_message_at`; only
when no error occurred, re-read the record and set
`message_count := message_count + 2` in the same update. -/
def exchangeUpdatedStore (fld : ExchangeFold) (csid now2 : String) :
    List ChannelSessionRec :=
  if fld.error_occurred then
    db_update_session fld.store csid (fun cs => { cs with last_message_at := now2 })
  else
    db_update_session fld.store csid
      (fun cs => { cs with
        last_message_at := now2
        message_count := (match get_by_id fld.store csid with
          | some existing => existing.message_count
          | none => 0) + 2 })

structure ExchangeResult where
  is_new : Bool
  resume_sid : Option String
  channel_session_id : String
  error_occurred : Bool
  reply_text : String
  store : List ChannelSessionRec
  sessions : List SessionRec
deriving Repr

/-- Steps 4-11 of `handle_inbound_message` for one processed exchange:
resolve the session, pass `session_id=None` to the engine iff the session is
new, consume the stream, substitute the placeholder reply, and update the
session counters. -/
def handle_inbound_exchange (store : List ChannelSessionRec)
    (sessions : List SessionRec)
    (cid aid chat sender : String) (thread display : Option String)
    (freshS freshCS now1 now2 : String) (o : EngineOutcome) : ExchangeResult :=
  let r := resolve_session store sessions cid aid chat sender thread display
    freshS freshCS now1
  let fld := runEngineStream r.channel_session_id r.session_id r.store o
  { is_new := r.is_new
    resume_sid := if r.is_new then none else some r.session_id
    channel_session_id := r.channel_session_id
    error_occurred := fld.error_occurred
    reply_text := if fld.reply_text == "" then "(No response generated)"
      else fld.reply_text
    store := exchangeUpdatedStore fld r.channel_session_id now2
    sessions := r.sessions }

/-- Store transformations performed by the stream loop only ever touch the
`session_id` field: every other field is preserved pointwise. -/
def SessionOnly (f : ChannelSessionRec → ChannelSessionRec) : Prop :=
  ∀ cs, (f cs).id = cs.id ∧ (f cs).channel_id = cs.channel_id ∧
    (f cs).external_chat_id = cs.external_chat_id ∧
    (f cs).external_thread_id = cs.external_thread_id ∧
    (f cs).message_count = cs.message_count ∧
    (f cs).last_message_at = cs.last_message_at

theorem sessionOnly_id : SessionOnly id :=
  fun _ => ⟨rfl, rfl, rfl, rfl, rfl, rfl⟩

theorem sessionOnly_comp {f g : ChannelSessionRec → ChannelSessionRec}
    (hf : SessionOnly f) (hg : SessionOnly g) :
    SessionOnly (fun cs => f (g cs)) := by
  intro cs
  obtain ⟨a1, a2, a3, a4, a5, a6⟩ := hf (g cs)
  obtain ⟨b1, b2, b3, b4, b5, b6⟩ := hg cs
  exact ⟨a1.trans b1, a2.trans b2, a3.trans b3, a4.trans b4, a5.trans b5,
    a6.trans b6⟩

theorem sessionOnly_upd (csid n : String) :
    SessionOnly (fun cs => if cs.id == csid then { cs with session_id := n }
      else cs) := by
  intro cs
  cases h : (cs.id == csid) <;> simp [h]

theorem processEvent_store (csid : String) (st : ExchangeFold) (e : Event) :
    ∃ g, SessionOnly g ∧ (processEvent csid st e).store = st.store.map g := by
  by_cases h1 : e.type = "assistant"
  · refine ⟨id, sessionOnly_id, ?_⟩
    unfold processEvent
    rw [if_pos (by simp [h1])]
    split <;> simp
  by_cases h2 : e.type = "session_start"
  · unfold processEvent
    rw [if_neg (by simp [h2, h1]), if_pos (by simp [h2])]
    by_cases hn : (e.sessionId.getD "" != ""
        && e.sessionId.getD "" != st.session_id) = true
    · refine ⟨fun cs => if cs.id == csid
        then { cs with session_id := e.sessionId.getD "" } else cs,
        sessionOnly_upd csid (e.sessionId.getD ""), ?_⟩
      rw [if_pos hn]
      rfl
    · refine ⟨id, sessionOnly_id, ?_⟩
      rw [if_neg hn]
      simp
  by_cases h3 : e.type = "result"
  · refine ⟨id, sessionOnly_id, ?_⟩
    unfold processEvent
    rw [if_neg (by simp [h3]), if_neg (by simp [h3]), if_pos (by simp [h3])]
    split <;> simp
  by_cases h4 : e.type = "error"
  · refine ⟨id, sessionOnly_id, ?_⟩
    unfold processEvent
    rw [if_neg (by simp [h4]), if_neg (by simp [h4]), if_neg (by simp [h4]),
      if_pos (by simp [h4])]
    simp
  · refine ⟨id, sessionOnly_id, ?_⟩
    unfold processEvent
    rw [if_neg (by simp [h1]), if_neg (by simp [h2]), if_neg (by simp [h3]),
      if_neg (by simp [h4])]
    simp

theorem fold_store_shape (csid : String) (events : List Event) :
    ∀ st : ExchangeFold, ∃ f, SessionOnly f ∧
      (events.foldl (processEvent csid) st).store = st.store.map f := by
  induction events with
  | nil => intro st; exact ⟨id, sessionOnly_id, by simp⟩
  | cons e es ih =>
    intro st
    obtain ⟨g, hg, hgst⟩ := processEvent_store csid st e
    obtain ⟨f, hf, hfst⟩ := ih (processEvent csid st e)
    refine ⟨fun cs => f (g cs), sessionOnly_comp hf hg, ?_⟩
    simp only [List.foldl_cons, hfst, hgst, List.map_map]
    rfl

theorem processEvent_error (csid : String) (st : ExchangeFold) (e : Event) :
    (processEvent csid st e).error_occurred
      = (st.error_occurred || errEventB e) := by
  by_cases h1 : e.type = "assistant"
  · have hb : errEventB e = false := by simp [errEventB, h1]
    rw [hb, Bool.or_false]
    unfold processEvent
    rw [if_pos (by simp [h1])]
    split <;> rfl
  by_cases h2 : e.type = "session_start"
  · have hb : errEventB e = false := by simp [errEventB, h2]
    rw [hb, Bool.or_false]
    unfold processEvent
    rw [if_neg (by simp [h1]), if_pos (by simp [h2])]
    split <;> rfl
  by_cases h3 : e.type = "result"
  · have hb : errEventB e = (e.subtype != "" && strContains e.subtype "error") := by
      simp [errEventB, h3]
    rw [hb]
    unfold processEvent
    rw [if_neg (by simp [h1]), if_neg (by simp [h2]), if_pos (by simp [h3])]
    split
    next hc => simp [hc]
    next hc => simp [Bool.eq_false_iff.mpr hc]
  by_cases h4 : e.type = "error"
  · have hb : errEventB e = true := by simp [errEventB, h4]
    rw [hb]
    unfold processEvent
    rw [if_neg (by simp [h1]), if_neg (by simp [h2]), if_neg (by simp [h3]),
      if_pos (by simp [h4])]
    simp
  · have hb : errEventB e = false := by simp [errEventB, h3, h4]
    rw [hb, Bool.or_false]
    unfold processEvent
    rw [if_neg (by simp [h1]), if_neg (by simp [h2]), if_neg (by simp [h3]),
      if_neg (by simp [h4])]

theorem fold_error (csid : String) (events : List Event) :
    ∀ st : ExchangeFold, (events.foldl (processEvent csid) st).error_occurred
      = (st.error_occurred || events.any errEventB) := by
  induction events with
  | nil => intro st; simp
  | cons e es ih =>
    intro st
    simp only [List.foldl_cons, List.any_cons]
    rw [ih, processEvent_error]
    simp [Bool.or_assoc]

theorem runEngineStream_error (csid sid0 : String)
    (store : List ChannelSessionRec) (o : EngineOutcome) :
    (runEngineStream csid sid0 store o).error_occurred = engineErrored o := by
  unfold runEngineStream engineErrored
  cases hr : o.raised
  · simp [hr, fold_error]
  · simp [hr]

theorem runEngineStream_store (csid sid0 : String)
    (store : List ChannelSessionRec) (o : EngineOutcome) :
    ∃ f, SessionOnly f ∧ (runEngineStream csid sid0 store o).store
      = store.map f := by
  obtain ⟨f, hf, hfst⟩ := fold_store_shape csid o.events
    { reply_text := "", error_occurred := false, session_id := sid0,
      store := store }
  refine ⟨f, hf, ?_⟩
  unfold runEngineStream
  split
  · exact hfst
  · exact hfst

theorem find?_map_comm (g : ChannelSessionRec → ChannelSessionRec)
    (p : ChannelSessionRec → Bool) (hg : ∀ cs, p (g cs) = p cs)
    (store : List ChannelSessionRec) :
    (store.map g).find? p = (store.find? p).map g := by
  induction store with
  | nil => rfl
  | cons a rest ih =>
    cases hpa : p a
    · have hga : p (g a) = false := by rw [hg, hpa]
      simp only [List.map_cons, List.find?_cons, hga, hpa]
      exact ih
    · have hga : p (g a) = true := by rw [hg, hpa]
      simp only [List.map_cons, List.find?_cons, hga, hpa]
      rfl

theorem get_by_id_update (store : List ChannelSessionRec) (csid : String)
    (fupd : ChannelSessionRec → ChannelSessionRec)
    (hid : ∀ cs, (fupd cs).id = cs.id) :
    get_by_id (db_update_session store csid fupd) csid
      = (get_by_id store csid).map fupd := by
  induction store with
  | nil => rfl
  | cons a rest ih =>
    cases ha : (a.id == csid)
    · have hhead : (if (a.id == csid) = true then fupd a else a) = a :=
        if_neg (by simp [ha])
      simp only [db_update_session, List.map_cons]
      rw [hhead]
      simp only [get_by_id, List.find?_cons, ha]
      simpa [db_update_session, get_by_id] using ih
    · have hhead : (if (a.id == csid) = true then fupd a else a) = fupd a :=
        if_pos (by simp [ha])
      have hfa : ((fupd a).id == csid) = true := by rw [hid]; exact ha
      simp only [db_update_session, List.map_cons]
      rw [hhead]
      simp only [get_by_id, List.find?_cons, ha, hfa]
      rfl

theorem get_by_id_of_mem :
    ∀ store : List ChannelSessionRec,
      (store.map (fun cs => cs.id)).Nodup →
      ∀ cs ∈ store, get_by_id store cs.id = some cs := by
  intro store
  induction store with
  | nil => intro _ cs h; cases h
  | cons a rest ih =>
    intro hids cs hmem
    rw [List.map_cons] at hids
    have hids' := List.nodup_cons.mp hids
    rcases List.mem_cons.mp hmem with rfl | hmem'
    · simp [get_by_id, List.find?_cons]
    · have hane : (a.id == cs.id) = false := by
        apply beq_eq_false_iff_ne.mpr
        intro h
        exact hids'.1 (by rw [h]; exact List.mem_map_of_mem (fun c => c.id) hmem')
      simp only [get_by_id, List.find?_cons, hane]
      exact ih hids'.2 cs hmem'

theorem get_by_id_append_fresh (store : List ChannelSessionRec)
    (row : ChannelSessionRec) (hfresh : ∀ cs ∈ store, cs.id ≠ row.id) :
    get_by_id (store ++ [row]) row.id = some row := by
  unfold get_by_id
  rw [find?_append_none _ _ _ (List.find?_eq_none.mpr
    (fun cs hcs => by simp [hfresh cs hcs]))]
  simp [List.find?_cons]

/-- `message_count` of the session row for the tuple before an exchange
(0 when the chat is brand new). -/
def mcBefore (store : List ChannelSessionRec) (cid chat : String)
    (thread : Option String) : Nat :=
  match find_by_external store cid chat thread with
  | some ex => ex.message_count
  | none => 0

theorem resolve_session_of_found (store : List ChannelSessionRec)
    (sessions : List SessionRec) (cid aid chat sender : String)
    (thread display : Option String) (f1 f2 now1 : String)
    (ex : ChannelSessionRec)
    (hfind : find_by_external store cid chat thread = some ex) :
    resolve_session store sessions cid aid chat sender thread display f1 f2 now1
      = { session_id := ex.session_id, channel_session_id := ex.id,
          is_new := ex.message_count == 0, store := store,
          sessions := sessions } := by
  unfold resolve_session
  rw [hfind]

theorem resolve_session_of_new (store : List ChannelSessionRec)
    (sessions : List SessionRec) (cid aid chat sender : String)
    (thread display : Option String) (f1 f2 now1 : String)
    (hfind : find_by_external store cid chat thread = none) :
    resolve_session store sessions cid aid chat sender thread display f1 f2 now1
      = { session_id := f1, channel_session_id := f2, is_new := true,
          store := store ++ [newChannelSessionRow cid aid chat sender thread
            display f1 f2 now1],
          sessions := sessions ++ [newSessionRow aid sender display f1] } := by
  unfold resolve_session
  rw [hfind]
  rfl

theorem exchange_counter_update (rrstore : List ChannelSessionRec)
    (csid sid0 : String) (o : EngineOutcome) (now2 : String)
    (before : ChannelSessionRec)
    (hbefore : get_by_id rrstore csid = some before) :
    ∃ after,
      get_by_id (exchangeUpdatedStore (runEngineStream csid sid0 rrstore o)
        csid now2) csid = some after ∧
      after.last_message_at = now2 ∧
      after.message_count = before.message_count
        + (if engineErrored o then 0 else 2) := by
  obtain ⟨f, hf, hfst⟩ := runEngineStream_store csid sid0 rrstore o
  have hmid : get_by_id (runEngineStream csid sid0 rrstore o).store csid
      = some (f before) := by
    rw [hfst]
    unfold get_by_id at hbefore ⊢
    rw [find?_map_comm f _ (fun cs => by rw [(hf cs).1]) rrstore, hbefore]
    rfl
  unfold exchangeUpdatedStore
  cases herr : (runEngineStream csid sid0 rrstore o).error_occurred
  · have hee : engineErrored o = false := by
      rw [← runEngineStream_error csid sid0 rrstore o]
      exact herr
    rw [if_neg Bool.false_ne_true]
    simp only [hmid]
    rw [get_by_id_update _ csid
      (fun cs => { cs with last_message_at := now2, message_count := (f before).message_count + 2 })
      (fun cs => rfl), hmid]
    refine ⟨_, rfl, rfl, ?_⟩
    simp [hee, (hf before).2.2.2.2.1]
  · have hee : engineErrored o = true := by
      rw [← runEngineStream_error csid sid0 rrstore o]
      exact herr
    rw [if_pos rfl]
    rw [get_by_id_update _ csid
      (fun cs => { cs with last_message_at := now2 }) (fun cs => rfl), hmid]
    refine ⟨_, rfl, rfl, ?_⟩
    simp [hee, (hf before).2.2.2.2.1]

/-- Claim C2: for every processed inbound exchange, the session-counter update
always sets `last_message_at` and increments `message_count` by exactly 2 iff
the exchange did not error; consequently a failed first exchange on a
brand-new chat leaves `message_count = 0`, the next inbound message resolves
`is_new = true`, and that next exchange invokes the engine with no resume
token (`session_id=None`). -/
theorem C2_session_counters (store : List ChannelSessionRec)
    (sessions : List SessionRec) (cid aid chat sender : String)
    (thread display : Option String) (freshS freshCS now1 now2 : String)
    (o : EngineOutcome) (g1 g2 now3 now4 : String) (o2 : EngineOutcome)
    (hids : (store.map (fun cs => cs.id)).Nodup)
    (hfresh : freshCS ∉ store.map (fun cs => cs.id)) :
    let r := handle_inbound_exchange store sessions cid aid chat sender thread
      display freshS freshCS now1 now2 o
    let r2 := handle_inbound_exchange r.store r.sessions cid aid chat sender
      thread display g1 g2 now3 now4 o2
    r.error_occurred = engineErrored o ∧
    (∃ after, get_by_id r.store r.channel_session_id = some after ∧
      after.last_message_at = now2 ∧
      after.message_count = mcBefore store cid chat thread
        + (if engineErrored o then 0 else 2)) ∧
    (find_by_external store cid chat thread = none → engineErrored o = true →
      (∃ after, find_by_external r.store cid chat thread = some after ∧
        after.message_count = 0) ∧
      r2.is_new = true ∧ r2.resume_sid = none) := by
  dsimp only
  refine ⟨?_, ?_, ?_⟩
  · exact runEngineStream_error _ _ _ _
  · -- the session counters after the exchange
    cases hfind : find_by_external store cid chat thread with
    | some ex =>
      have hrr := resolve_session_of_found store sessions cid aid chat sender
        thread display freshS freshCS now1 ex hfind
      have hbefore : get_by_id store ex.id = some ex :=
        get_by_id_of_mem store hids ex (List.mem_of_find?_eq_some hfind)
      have hmc : mcBefore store cid chat thread = ex.message_count := by
        unfold mcBefore
        rw [hfind]
      have hkey : (handle_inbound_exchange store sessions cid aid chat sender
          thread display freshS freshCS now1 now2 o).store
          = exchangeUpdatedStore
              (runEngineStream
                (resolve_session store sessions cid aid chat sender thread
                  display freshS freshCS now1).channel_session_id
                (resolve_session store sessions cid aid chat sender thread
                  display freshS freshCS now1).session_id
                (resolve_session store sessions cid aid chat sender thread
                  display freshS freshCS now1).store o)
              (resolve_session store sessions cid aid chat sender thread
                display freshS freshCS now1).channel_session_id now2 := rfl
      have hcsid : (handle_inbound_exchange store sessions cid aid chat sender
          thread display freshS freshCS now1 now2 o).channel_session_id
          = (resolve_session store sessions cid aid chat sender thread display
              freshS freshCS now1).channel_session_id := rfl
      rw [hmc, hcsid, hkey, hrr]
      dsimp only
      exact exchange_counter_update store ex.id ex.session_id o now2 ex hbefore
    | none =>
      have hrr := resolve_session_of_new store sessions cid aid chat sender
        thread display freshS freshCS now1 hfind
      have hfresh' : ∀ cs ∈ store, cs.id ≠ (newChannelSessionRow cid aid chat
          sender thread display freshS freshCS now1).id := by
        intro cs hcs h
        apply hfresh
        have hcsid' : cs.id = freshCS := h
        rw [← hcsid']
        exact List.mem_map_of_mem (fun c => c.id) hcs
      have hbefore := get_by_id_append_fresh store
        (newChannelSessionRow cid aid chat sender thread display freshS freshCS
          now1) hfresh'
      have hmc : mcBefore store cid chat thread = 0 := by
        unfold mcBefore
        rw [hfind]
      have hkey : (handle_inbound_exchange store sessions cid aid chat sender
          thread display freshS freshCS now1 now2 o).store
          = exchangeUpdatedStore
              (runEngineStream
                (resolve_session store sessions cid aid chat sender thread
                  display freshS freshCS now1).channel_session_id
                (resolve_session store sessions cid aid chat sender thread
                  display freshS freshCS now1).session_id
                (resolve_session store sessions cid aid chat sender thread
                  display freshS freshCS now1).store o)
              (resolve_session store sessions cid aid chat sender thread
                display freshS freshCS now1).channel_session_id now2 := rfl
      have hcsid : (handle_inbound_exchange store sessions cid aid chat sender
          thread display freshS freshCS now1 now2 o).channel_session_id
          = (resolve_session store sessions cid aid chat sender thread display
              freshS freshCS now1).channel_session_id := rfl
      rw [hmc, hcsid, hkey, hrr]
      dsimp only
      have := exchange_counter_update
        (store ++ [newChannelSessionRow cid aid chat sender thread display
          freshS freshCS now1])
        freshCS freshS o now2
        (newChannelSessionRow cid aid chat sender thread display freshS freshCS
          now1) hbefore
      simpa [newChannelSessionRow] using this
  · -- failed first exchange on a brand-new chat
    intro hfind herr
    have hrr := resolve_session_of_new store sessions cid aid chat sender
      thread display freshS freshCS now1 hfind
    have hflderr : (runEngineStream
        (resolve_session store sessions cid aid chat sender thread display
          freshS freshCS now1).channel_session_id
        (resolve_session store sessions cid aid chat sender thread display
          freshS freshCS now1).session_id
        (resolve_session store sessions cid aid chat sender thread display
          freshS freshCS now1).store o).error_occurred = true := by
      rw [runEngineStream_error]
      exact herr
    obtain ⟨f, hf, hfst⟩ := runEngineStream_store
      (resolve_session store sessions cid aid chat sender thread display
        freshS freshCS now1).channel_session_id
      (resolve_session store sessions cid aid chat sender thread display
        freshS freshCS now1).session_id
      (resolve_session store sessions cid aid chat sender thread display
        freshS freshCS now1).store o
    -- the store after the whole failed exchange
    have hkey : (handle_inbound_exchange store sessions cid aid chat sender
        thread display freshS freshCS now1 now2 o).store
        = exchangeUpdatedStore
            (runEngineStream
              (resolve_session store sessions cid aid chat sender thread
                display freshS freshCS now1).channel_session_id
              (resolve_session store sessions cid aid chat sender thread
                display freshS freshCS now1).session_id
              (resolve_session store sessions cid aid chat sender thread
                display freshS freshCS now1).store o)
            (resolve_session store sessions cid aid chat sender thread
              display freshS freshCS now1).channel_session_id now2 := rfl
    have hupd : (handle_inbound_exchange store sessions cid aid chat sender
        thread display freshS freshCS now1 now2 o).store
        = db_update_session
            ((resolve_session store sessions cid aid chat sender thread
              display freshS freshCS now1).store.map f)
            (resolve_session store sessions cid aid chat sender thread display
              freshS freshCS now1).channel_session_id
            (fun cs => { cs with last_message_at := now2 }) := by
      rw [hkey]
      unfold exchangeUpdatedStore
      rw [hflderr, if_pos rfl, hfst]
    -- find the row for the tuple in the final store
    have hrowfind : find_by_external
        ((resolve_session store sessions cid aid chat sender thread display
          freshS freshCS now1).store) cid chat thread
        = some (newChannelSessionRow cid aid chat sender thread display freshS
            freshCS now1) := by
      rw [hrr]
      unfold find_by_external at hfind ⊢
      rw [find?_append_none _ _ _ hfind]
      simp [newChannelSessionRow]
    have hmapfind : find_by_external
        ((resolve_session store sessions cid aid chat sender thread display
          freshS freshCS now1).store.map f) cid chat thread
        = some (f (newChannelSessionRow cid aid chat sender thread display
            freshS freshCS now1)) := by
      unfold find_by_external at hrowfind ⊢
      rw [find?_map_comm f _ (fun cs => by
        rw [(hf cs).2.1, (hf cs).2.2.1, (hf cs).2.2.2.1]) _, hrowfind]
      rfl
    have hfinal : ∃ after,
        find_by_external (handle_inbound_exchange store sessions cid aid chat
          sender thread display freshS freshCS now1 now2 o).store cid chat
          thread = some after ∧ after.message_count = 0 := by
      rw [hupd]
      unfold db_update_session find_by_external
      rw [find?_map_comm _ _ (fun cs => by
        cases h : (cs.id == (resolve_session store sessions cid aid chat
          sender thread display freshS freshCS now1).channel_session_id) <;>
          simp [h]) _]
      unfold find_by_external at hmapfind
      rw [hmapfind]
      refine ⟨_, rfl, ?_⟩
      have hmcf : (f (newChannelSessionRow cid aid chat sender thread display
          freshS freshCS now1)).message_count = 0 :=
        (hf _).2.2.2.2.1
      cases h : ((f (newChannelSessionRow cid aid chat sender thread display
          freshS freshCS now1)).id == (resolve_session store sessions cid aid
          chat sender thread display freshS freshCS now1).channel_session_id)
      · simpa [h] using hmcf
      · simpa [h] using hmcf
    refine ⟨hfinal, ?_, ?_⟩
    · obtain ⟨after, hafter, hmc0⟩ := hfinal
      have hres2 := resolve_session_of_found
        (handle_inbound_exchange store sessions cid aid chat sender thread
          display freshS freshCS now1 now2 o).store
        (handle_inbound_exchange store sessions cid aid chat sender thread
          display freshS freshCS now1 now2 o).sessions
        cid aid chat sender thread display g1 g2 now3 after hafter
      show (resolve_session _ _ cid aid chat sender thread display g1 g2
        now3).is_new = true
      rw [hres2]
      simp [hmc0]
    · obtain ⟨after, hafter, hmc0⟩ := hfinal
      have hres2 := resolve_session_of_found
        (handle_inbound_exchange store sessions cid aid chat sender thread
          display freshS freshCS now1 now2 o).store
        (handle_inbound_exchange store sessions cid aid chat sender thread
          display freshS freshCS now1 now2 o).sessions
        cid aid chat sender thread display g1 g2 now3 after hafter
      show (if (resolve_session _ _ cid aid chat sender thread display g1 g2
          now3).is_new then none
        else some (resolve_session _ _ cid aid chat sender thread display g1
          g2 now3).session_id) = none
      rw [hres2]
      simp [hmc0]

theorem C2_session_counters_witness :
    let r := handle_inbound_exchange [] [] "c" "a" "chat" "u" none none "s1"
      "cs1" "t1" "t2" { events := [], raised := true }
    let r2 := handle_inbound_exchange r.store r.sessions "c" "a" "chat" "u"
      none none "s2" "cs2" "t3" "t4" { events := [], raised := true }
    r.error_occurred = engineErrored { events := [], raised := true } ∧
    (∃ after, get_by_id r.store r.channel_session_id = some after ∧
      after.last_message_at = "t2" ∧
      after.message_count = mcBefore [] "c" "chat" none
        + (if engineErrored { events := [], raised := true } then 0 else 2)) ∧
    (find_by_external [] "c" "chat" none = none →
      engineErrored { events := [], raised := true } = true →
      (∃ after, find_by_external r.store "c" "chat" none = some after ∧
        after.message_count = 0) ∧
      r2.is_new = true ∧ r2.resume_sid = none) :=
  C2_session_counters [] [] "c" "a" "chat" "u" none none "s1" "cs1" "t1" "t2"
    { events := [], raised := true } "s2" "cs2" "t3" "t4"
    { events := [], raised := true } (by simp) (by simp)

/-! ## Task creation (`TaskManager.create_task`) -/

structure AgentRec where
  name : Option String := none
  model : Option String := none
deriving DecidableEq, Repr

structure TaskRec where
  id : String
  agent_id : String
  session_id : Option String
  status : String
  title : String
  model : Option String
  created_at : String
  started_at : Option String
  completed_at : Option String
  error : Option String
  work_dir : Option String
deriving DecidableEq, Repr

structure InboundTaskMsg where
  message : Option String := none
  content : Option (List Block) := none
deriving DecidableEq, Repr

/-- The task-manager in-memory state touched by `create_task`:
`_running_tasks` (reduced to task ids), `_event_buffers`, `_subscribers`
(queues reduced to ids) and `_message_queues`. -/
structure TMState where
  running_tasks : List String
  event_buffers : List (String × List Event)
  subscribers : List (String × List Nat)
  message_queues : List (String × List InboundTaskMsg)
deriving DecidableEq, Repr

def emptyTMState : TMState :=
  { running_tasks := [], event_buffers := [], subscribers := [],
    message_queues := [] }

/-- Python truthiness of an optional string (`None` and `""` are falsy). -/
def pyStrTruthy (o : Option String) : Bool := o.getD "" != ""

/-- Python truthiness of an optional list (`None` and `[]` are falsy). -/
def pyListTruthy (o : Option (List Block)) : Bool := !(o.getD []).isEmpty

/-- Title generation of `create_task`. -/
def taskTitle (agent_config : AgentRec) (message : Option String)
    (content : Option (List Block)) : String :=
  let baseTitle :=
    if pyListTruthy content then
      match (content.getD []).find? (fun b => b.type == "text" && b.text != "") with
      | some b => b.text.take 50
      | none => "[Attachment message]"
    else if pyStrTruthy message then (message.getD "").take 50
    else "Task with " ++ agent_config.name.getD "agent"
  if pyStrTruthy message && decide ((message.getD "").length > 50) then
    baseTitle ++ "..."
  else baseTitle

/-- `TaskManager.create_task`.  `db.agents.get` / `db.tasks.put` are modelled
from the spec (record store not under `src/`) as association-list lookup and
append; `uuid4().hex` and `datetime.now()` are the `fresh_task_id` / `now`
parameters; launching the background execution unit is recorded by adding the
task id to `_running_tasks`.  The agent lookup happens before any mutation,
exactly as in the source. -/
def create_task (agents : List (String × AgentRec)) (tasksDb : List TaskRec)
    (st : TMState) (agent_id : String) (message : Option String)
    (content : Option (List Block)) (add_dirs : Option (List String))
    (fresh_task_id now : String) :
    Except String TaskRec × List TaskRec × TMState :=
  match lookupRec agents agent_id with
  | none => (.error ("Agent " ++ agent_id ++ " not found"), tasksDb, st)
  | some agent_config =>
    let task : TaskRec :=
      { id := fresh_task_id
        agent_id := agent_id
        session_id := none
        status := "pending"
        title := taskTitle agent_config message content
        model := agent_config.model
        created_at := now
        started_at := none
        completed_at := none
        error := none
        work_dir := match add_dirs with
          | some (d :: _) => some d
          | _ => none }
    (.ok task,
      tasksDb ++ [task],
      { running_tasks := st.running_tasks ++ [fresh_task_id]
        event_buffers := st.event_buffers ++ [(fresh_task_id, [])]
        subscribers := st.subscribers ++ [(fresh_task_id, [])]
        message_queues := st.message_queues ++ [(fresh_task_id, [])] })

/-- Claim C10: `create_task` for an agent id with no persisted agent record
raises and changes nothing — the persisted task table and the whole in-memory
task-manager state (running set, event buffers, subscriber sets, message
queues) are returned unchanged, because the agent lookup precedes every
mutation. -/
theorem C10_create_task_atomic (agents : List (String × AgentRec))
    (tasksDb : List TaskRec) (st : TMState) (agent_id : String)
    (message : Option String) (content : Option (List Block))
    (add_dirs : Option (List String)) (fresh_task_id now : String)
    (h : lookupRec agents agent_id = none) :
    create_task agents tasksDb st agent_id message content add_dirs
      fresh_task_id now
      = (.error ("Agent " ++ agent_id ++ " not found"), tasksDb, st) := by
  unfold create_task
  rw [h]

theorem C10_create_task_atomic_witness :
    create_task [] [] emptyTMState "a1" none none none "task_x" "t0"
      = (.error ("Agent " ++ "a1" ++ " not found"), [], emptyTMState) :=
  C10_create_task_atomic [] [] emptyTMState "a1" none none none "task_x" "t0"
    rfl

end IWork
